import Mathlib

/-!
Verification of the Mandelbrot renderer in
`src/src/app/components/MandelbrotViewer.tsx`.

The repository contains two implementations of the escape-time algorithm:

* the WebGL fragment shader (`fragmentShaderSource main` with helpers
  `hue2rgb` and `hsl2rgb`), driven per frame by `render`, and
* the CPU routine `renderMandelbrot` together with `hslToRgb`.

Real-number arithmetic of the source (GLSL floats / JS doubles) is embedded
as exact rational arithmetic over `ℚ`; iteration counters are `Nat`.
JavaScript `%` is embedded as the truncating remainder `jsRem`, GLSL `mod`
as the flooring remainder `glslMod`, `Math.round` as `jsRound`, and the
`Uint8ClampedArray` store performed by `data[idx] = c.r` as `clampByte`.
-/

namespace Mandelbrot

/-! ## Escape-time loops -/

/-- CPU escape-time loop, from `renderMandelbrot`:
`while (x*x + y*y <= 4 && iter < maxIter) { xTemp = x*x - y*y + x0; y = 2*x*y + y0; x = xTemp; iter++; }`.
The `fuel` argument is `maxIter - iter`, so the guard `iter < maxIter`
is `0 < fuel`.  Returns the final `(x, y, iter)`. -/
def renderLoop (x0 y0 : ℚ) (x y : ℚ) (iter : Nat) : Nat → ℚ × ℚ × Nat
  | 0 => (x, y, iter)
  | fuel + 1 =>
    if x * x + y * y ≤ 4 then
      renderLoop x0 y0 (x * x - y * y + x0) (2 * x * y + y0) (iter + 1) fuel
    else (x, y, iter)

/-- CPU per-pixel evaluation: the loop started from `x = 0, y = 0, iter = 0`. -/
def renderPoint (x0 y0 : ℚ) (maxIter : Nat) : ℚ × ℚ × Nat :=
  renderLoop x0 y0 0 0 0 maxIter

/-- GPU escape-time loop, from the fragment shader:
`for(int i = 0; i < 20000; i++) { if(i >= uMaxIter) break; xTemp = x*x - y*y + x0; y = 2*x*y + y0; x = xTemp; if (x*x + y*y > 4) { iter = i; break; } }`.
`fuel` is `20000 - i`.  The result is `(iter, escaped, updates)` where `iter`
is the shader variable `iter` at loop exit (it is initialised to `0` and only
assigned on the escape break), `escaped` records whether the escape break was
taken, and `updates` is a ghost counter of how many `z := z² + c` updates
were performed. -/
def shaderLoop (x0 y0 : ℚ) (maxIter : Nat) (x y : ℚ) (i : Nat) : Nat → Nat × Bool × Nat
  | 0 => (0, false, 0)
  | fuel + 1 =>
    if maxIter ≤ i then (0, false, 0)
    else
      let xT := x * x - y * y + x0
      let yN := 2 * x * y + y0
      if 4 < xT * xT + yN * yN then (i, true, 1)
      else
        let r := shaderLoop x0 y0 maxIter xT yN (i + 1) fuel
        (r.1, r.2.1, r.2.2 + 1)

/-- GPU per-fragment evaluation: the shader loop started at `i = 0`,
`x = y = 0`, with the hard compile-time bound of `20000` loop iterations. -/
def shaderPoint (x0 y0 : ℚ) (maxIter : Nat) : Nat × Bool × Nat :=
  shaderLoop x0 y0 maxIter 0 0 0 20000

/-! ## Coordinate mapper -/

/-- Linear pixel-to-complex interpolation, used identically on both paths:
CPU `x0 = xMin + (px / width) * (xMax - xMin)` and shader
`x0 = xMin + (gl_FragCoord.x / uResolution.x) * (xMax - xMin)`
(and the same formula for the `y` axis). -/
def pixelToX (px width : Nat) (xMin xMax : ℚ) : ℚ :=
  xMin + ((px : ℚ) / (width : ℚ)) * (xMax - xMin)

/-! ## Numeric primitives of the host languages -/

/-- Truncation toward zero, as JavaScript division-based remainder uses. -/
def truncQ (q : ℚ) : ℤ :=
  if 0 ≤ q then ⌊q⌋ else ⌈q⌉

/-- JavaScript `%`: the truncating remainder `a - b * trunc(a / b)`. -/
def jsRem (a b : ℚ) : ℚ :=
  a - b * truncQ (a / b)

/-- GLSL `mod(x, y) = x - y * floor(x / y)`, a flooring (mathematical)
remainder. -/
def glslMod (x y : ℚ) : ℚ :=
  x - y * ⌊x / y⌋

/-- JavaScript `Math.round`: round half toward positive infinity. -/
def jsRound (q : ℚ) : ℤ :=
  ⌊q + 1 / 2⌋

/-- Storing an integer into a `Uint8ClampedArray` entry clamps it
to `[0, 255]` (this happens at `data[idx] = c.r` etc. in
`renderMandelbrot`). -/
def clampByte (z : ℤ) : ℤ :=
  max 0 (min 255 z)

/-! ## Color mappers -/

/-- The `hue2rgb` helper, defined identically in the fragment shader and in
the TypeScript `hslToRgb`:
`if(t < 0) t += 1; if(t > 1) t -= 1; if(t < 1/6) return p + (q - p) * 6 * t; if(t < 1/2) return q; if(t < 2/3) return p + (q - p) * (2/3 - t) * 6; return p;`. -/
def hue2rgb (p q t : ℚ) : ℚ :=
  let t1 := if t < 0 then t + 1 else t
  let t2 := if 1 < t1 then t1 - 1 else t1
  if t2 < 1 / 6 then p + (q - p) * 6 * t2
  else if t2 < 1 / 2 then q
  else if t2 < 2 / 3 then p + (q - p) * (2 / 3 - t2) * 6
  else p

/-- GLSL `hsl2rgb`: raw rational (float) channels in the shader. -/
def hsl2rgb (h s l : ℚ) : ℚ × ℚ × ℚ :=
  let q := if l < 1 / 2 then l * (1 + s) else l + s - l * s
  let p := 2 * l - q
  (hue2rgb p q (h + 1 / 3), hue2rgb p q h, hue2rgb p q (h - 1 / 3))

/-- TypeScript `hslToRgb`: the same conversion followed by
`Math.round(channel * 255)` on each channel.  The result can lie outside
`[0, 255]` (for hue arguments below `-2/3`); the clamp to an 8-bit value
happens only at the `Uint8ClampedArray` store. -/
def hslToRgb (h s l : ℚ) : ℤ × ℤ × ℤ :=
  let q := if l < 1 / 2 then l * (1 + s) else l + s - l * s
  let p := 2 * l - q
  (jsRound (hue2rgb p q (h + 1 / 3) * 255),
   jsRound (hue2rgb p q h * 255),
   jsRound (hue2rgb p q (h - 1 / 3) * 255))

/-- The CPU color stage applied to `v = ratio * 360 + hueShift`
(`renderMandelbrot` lines: `hue = ((ratio * 360) + hueShift) % 360;
c = hslToRgb(hue / 360, 1, 0.5); data[idx] = c.r; ...`), including the
`Uint8ClampedArray` clamp of each stored channel. -/
def colorBytes (v : ℚ) : ℤ × ℤ × ℤ :=
  let hue := jsRem v 360
  let c := hslToRgb (hue / 360) 1 (1 / 2)
  (clampByte c.1, clampByte c.2.1, clampByte c.2.2)

/-- CPU per-pixel color: `ratio = iter / maxIter` and then the color stage.
Note the CPU path has no inside/escaped branch: every pixel is colored
through `hslToRgb`. -/
def cpuPixelColor (iter maxIter : Nat) (hueShift : ℚ) : ℤ × ℤ × ℤ :=
  colorBytes ((iter : ℚ) / (maxIter : ℚ) * 360 + hueShift)

/-- GPU color stage of the fragment shader:
`if (iter == uMaxIter) gl_FragColor = vec4(0,0,0,1); else { ratio = float(iter)/float(uMaxIter); hue = mod(ratio*360 + uHueShift, 360)/360; color = hsl2rgb(hue, 1.0, 0.5); }`.
Returns the raw RGB channels of `gl_FragColor`. -/
def fragColor (iter maxIter : Nat) (hueShift : ℚ) : ℚ × ℚ × ℚ :=
  if iter = maxIter then (0, 0, 0)
  else hsl2rgb (glslMod ((iter : ℚ) / (maxIter : ℚ) * 360 + hueShift) 360 / 360) 1 (1 / 2)

/-! ## Driver B: the full CPU buffer -/

/-- The pixel buffer filled by `renderMandelbrot`.  The source iterates
`px` in the outer loop and `py` in the inner loop, writing the four bytes
`(r, g, b, 255)` of pixel `(px, py)` at index `(py * width + px) * 4`;
since all writes target disjoint indices, the final buffer is the row-major
RGBA sequence built here (byte index `4 * (py * width + px) + channel`). -/
def renderMandelbrot (width height : Nat) (xMin xMax yMin yMax : ℚ)
    (maxIter : Nat) (hueShift : ℚ) : List ℤ :=
  (List.range (width * height)).foldr
    (fun idx acc =>
      let px := idx % width
      let py := idx / width
      let x0 := pixelToX px width xMin xMax
      let y0 := pixelToX py height yMin yMax
      let p := renderLoop x0 y0 0 0 0 maxIter
      let c := cpuPixelColor p.2.2 maxIter hueShift
      c.1 :: c.2.1 :: c.2.2 :: 255 :: acc)
    []

/-! ## Animated scale and the dynamic iteration cap -/

/-- `const zoomSpeed = 1.005`. -/
def zoomSpeed : ℚ := 1.005

/-- `const MAX_SCALE = 1.0e6`. -/
def MAX_SCALE : ℚ := 1000000

/-- Initial scale: `useState(100)`. -/
def initialScale : ℚ := 100

/-- One `scaleTween onUpdate` step:
`newScale = prev * zoomSpeed; if (newScale >= MAX_SCALE) newScale = 1.0;`. -/
def scaleStep (prev : ℚ) : ℚ :=
  if MAX_SCALE ≤ prev * zoomSpeed then 1 else prev * zoomSpeed

/-- The per-frame iteration cap:
`dynamicMaxIter = Math.floor(500 + 100 * Math.log(scale))`
(`Math.log` is the natural logarithm). -/
noncomputable def dynamicMaxIter (scale : ℝ) : ℤ :=
  ⌊(500 : ℝ) + 100 * Real.log scale⌋

end Mandelbrot

namespace Mandelbrot

/-! ## Loop unfolding and basic evaluation lemmas -/

lemma renderLoop_succ (x0 y0 x y : ℚ) (iter fuel : Nat) :
    renderLoop x0 y0 x y iter (fuel + 1) =
      if x * x + y * y ≤ 4 then
        renderLoop x0 y0 (x * x - y * y + x0) (2 * x * y + y0) (iter + 1) fuel
      else (x, y, iter) := rfl

lemma shaderLoop_succ (x0 y0 : ℚ) (maxIter : Nat) (x y : ℚ) (i fuel : Nat) :
    shaderLoop x0 y0 maxIter x y i (fuel + 1) =
      if maxIter ≤ i then (0, false, 0)
      else
        let xT := x * x - y * y + x0
        let yN := 2 * x * y + y0
        if 4 < xT * xT + yN * yN then (i, true, 1)
        else
          let r := shaderLoop x0 y0 maxIter xT yN (i + 1) fuel
          (r.1, r.2.1, r.2.2 + 1) := rfl

lemma renderLoop_stop (x0 y0 x y : ℚ) (iter fuel : Nat) (h : ¬ x * x + y * y ≤ 4) :
    renderLoop x0 y0 x y iter fuel = (x, y, iter) := by
  cases fuel with
  | zero => rfl
  | succ n => rw [renderLoop_succ, if_neg h]

/-- At the origin the CPU loop never escapes: it just burns all its fuel. -/
lemma renderLoop_origin (iter fuel : Nat) :
    renderLoop 0 0 0 0 iter fuel = (0, 0, iter + fuel) := by
  induction fuel generalizing iter with
  | zero => simp [renderLoop]
  | succ n ih =>
    rw [renderLoop_succ, if_pos (by norm_num)]
    norm_num [ih, Prod.ext_iff]
    omega

/-- At the origin the shader loop never escapes, so `iter` keeps its initial
value `0`; the number of updates is limited by `uMaxIter` and the fuel. -/
lemma shaderLoop_origin (m i fuel : Nat) :
    shaderLoop 0 0 m 0 0 i fuel = (0, false, min (m - i) fuel) := by
  induction fuel generalizing i with
  | zero => simp [shaderLoop]
  | succ n ih =>
    rw [shaderLoop_succ]
    by_cases hmi : m ≤ i
    · rw [if_pos hmi]
      have : m - i = 0 := by omega
      simp [this]
    · rw [if_neg hmi]
      norm_num [ih, Prod.ext_iff]
      omega

/-- Evaluation of the shader loop at the sample point `(2, 0)`: the first
update gives `z = (2, 0)` with `|z|² = 4`, which does not exceed the strict
threshold; the second update gives `z = (6, 0)` and escapes with `iter = 1`. -/
lemma shaderPoint_two (m : Nat) (hm : 2 ≤ m) : shaderPoint 2 0 m = (1, true, 2) := by
  obtain ⟨k, rfl⟩ := Nat.exists_eq_add_of_le hm
  unfold shaderPoint
  rw [show (20000 : Nat) = 19999 + 1 from rfl, shaderLoop_succ,
    if_neg (by omega : ¬ (2 + k ≤ 0))]
  norm_num
  rw [show (19999 : Nat) = 19998 + 1 from rfl, shaderLoop_succ,
    if_neg (by omega : ¬ (2 + k ≤ 1))]
  norm_num

/-- Evaluation of the CPU loop at `(2, 0)`: it performs two updates and
reports `iter = 2`. -/
lemma renderPoint_two (m : Nat) (hm : 2 ≤ m) : renderPoint 2 0 m = (6, 0, 2) := by
  obtain ⟨k, rfl⟩ := Nat.exists_eq_add_of_le hm
  unfold renderPoint
  rw [show 2 + k = (k + 1) + 1 from by omega, renderLoop_succ, if_pos (by norm_num)]
  norm_num
  rw [renderLoop_succ, if_pos (by norm_num)]
  norm_num
  rw [renderLoop_stop _ _ _ _ _ _ (by norm_num)]

end Mandelbrot

namespace Mandelbrot

/-- The ghost update counter of the shader loop is bounded by the remaining
iteration budget and the remaining fuel. -/
lemma shaderLoop_updates_le (x0 y0 : ℚ) (m : Nat) (fuel : Nat) :
    ∀ (x y : ℚ) (i : Nat), (shaderLoop x0 y0 m x y i fuel).2.2 ≤ min (m - i) fuel := by
  induction fuel with
  | zero => intro x y i; simp [shaderLoop]
  | succ n ih =>
    intro x y i
    rw [shaderLoop_succ]
    by_cases hmi : m ≤ i
    · rw [if_pos hmi]; simp
    · rw [if_neg hmi]
      simp only
      by_cases hesc :
          4 < (x * x - y * y + x0) * (x * x - y * y + x0) +
            (2 * x * y + y0) * (2 * x * y + y0)
      · rw [if_pos hesc]
        simp only
        omega
      · rw [if_neg hesc]
        simp only
        have := ih (x * x - y * y + x0) (2 * x * y + y0) (i + 1)
        omega

/-! ## Coordinate mapper lemmas -/

lemma pixelToX_mem (px width : Nat) (xMin xMax : ℚ) (hpx : px < width)
    (hx : xMin ≤ xMax) :
    xMin ≤ pixelToX px width xMin xMax ∧ pixelToX px width xMin xMax ≤ xMax := by
  have hw : (0 : ℚ) < width := by
    exact_mod_cast Nat.lt_of_le_of_lt (Nat.zero_le px) hpx
  have hr0 : 0 ≤ (px : ℚ) / (width : ℚ) := div_nonneg (by positivity) hw.le
  have hr1 : (px : ℚ) / (width : ℚ) ≤ 1 := by
    rw [div_le_one hw]; exact_mod_cast Nat.le_of_lt hpx
  unfold pixelToX
  constructor
  · nlinarith [mul_nonneg hr0 (sub_nonneg.mpr hx)]
  · nlinarith [mul_le_of_le_one_left (sub_nonneg.mpr hx) hr1]

lemma pixelToX_zero (width : Nat) (xMin xMax : ℚ) :
    pixelToX 0 width xMin xMax = xMin := by
  unfold pixelToX; norm_num

lemma pixelToX_last (width : Nat) (xMin xMax : ℚ) (hw : 0 < width)
    (hx : xMin < xMax) : pixelToX (width - 1) width xMin xMax < xMax := by
  have hwQ : (0 : ℚ) < width := by exact_mod_cast hw
  have hr : ((width - 1 : Nat) : ℚ) / (width : ℚ) < 1 := by
    rw [div_lt_one hwQ]; exact_mod_cast Nat.sub_lt hw (by norm_num)
  unfold pixelToX
  nlinarith [mul_lt_of_lt_one_left (sub_pos.mpr hx) hr]

/-! ## Scale animation lemmas -/

lemma scaleStep_mem (s : ℚ) (h1 : 1 ≤ s) (_h2 : s < MAX_SCALE) :
    1 ≤ scaleStep s ∧ scaleStep s < MAX_SCALE := by
  unfold scaleStep
  split_ifs with h
  · norm_num [MAX_SCALE]
  · push_neg at h
    have hz : (1 : ℚ) ≤ zoomSpeed := by norm_num [zoomSpeed]
    constructor
    · nlinarith
    · exact h

lemma scaleIter_mem (n : Nat) :
    1 ≤ scaleStep^[n] initialScale ∧ scaleStep^[n] initialScale < MAX_SCALE := by
  induction n with
  | zero => norm_num [initialScale, MAX_SCALE]
  | succ k ih =>
    rw [Function.iterate_succ_apply']
    exact scaleStep_mem _ ih.1 ih.2

lemma dynamicMaxIter_ge (r : ℝ) (hr : 1 ≤ r) : 500 ≤ dynamicMaxIter r := by
  unfold dynamicMaxIter
  rw [Int.le_floor]
  push_cast
  nlinarith [Real.log_nonneg hr]

end Mandelbrot

namespace Mandelbrot

/-- C1: the claim states that an Iteration Result with `escaped = false`
always yields RGB `(0,0,0)` in both color stages.  The code does not do
this: at `(x0, y0) = (0, 0)` with `maxIterations = 1` and `hueShift = 0`
the point does not escape, yet the CPU path colors it by `ratio = 1`
(bytes `(255, 0, 0)`) because `renderMandelbrot` has no inside branch, and
the GPU path colors it by `ratio = 0` (channels `(1, 0, 0)`) because the
shader's `iter` variable stays `0` and never equals `uMaxIter`.  This
theorem evaluates the code at that failing input. -/
theorem mandel_C1 :
    renderPoint 0 0 1 = (0, 0, 1) ∧
    (shaderPoint 0 0 1).1 = 0 ∧ (shaderPoint 0 0 1).2.1 = false ∧
    cpuPixelColor 1 1 0 = (255, 0, 0) ∧
    fragColor 0 1 0 = (1, 0, 0) ∧
    cpuPixelColor 1 1 0 ≠ (0, 0, 0) ∧
    fragColor 0 1 0 ≠ (0, 0, 0) := by
  refine ⟨?_, ?_, ?_, ?_, ?_, ?_, ?_⟩
  · simpa using renderLoop_origin 0 1
  · rw [shaderPoint, shaderLoop_origin]
  · rw [shaderPoint, shaderLoop_origin]
  · norm_num [cpuPixelColor, colorBytes, hslToRgb, hue2rgb, jsRem, truncQ,
      jsRound, clampByte]
  · norm_num [fragColor, hsl2rgb, hue2rgb, glslMod]
  · norm_num [cpuPixelColor, colorBytes, hslToRgb, hue2rgb, jsRem, truncQ,
      jsRound, clampByte]
  · norm_num [fragColor, hsl2rgb, hue2rgb, glslMod]

/-- C3 counterexample: the claim says `(2, 0)` escapes at iteration `0`
for any positive cap.  At `maxIterations = 5`, the shader reports
`iter = 1` and the CPU loop reports `iter = 2`, both nonzero: the very
first update gives `|z|² = 4`, which does not exceed the strict
threshold `> 4`. -/
theorem mandel_C3_cex :
    (shaderPoint 2 0 5).1 ≠ 0 ∧ (renderPoint 2 0 5).2.2 ≠ 0 := by
  rw [shaderPoint_two 5 (by norm_num), renderPoint_two 5 (by norm_num)]
  norm_num

/-- C3 amended: for every `maxIterations ≥ 2`, the point `(2, 0)` escapes
at the second update (`|z₁|² = 4` is not `> 4`, `|z₂|² = 36` is): the
shader reports escape with `iter = 1` after two updates, and the CPU loop
exits at `(6, 0)` with `iter = 2`. -/
theorem mandel_C3 (m : Nat) (hm : 2 ≤ m) :
    shaderPoint 2 0 m = (1, true, 2) ∧ renderPoint 2 0 m = (6, 0, 2) :=
  ⟨shaderPoint_two m hm, renderPoint_two m hm⟩

/-- C3 witness: the amended claim at the concrete cap `maxIterations = 2`. -/
theorem mandel_C3_witness :
    shaderPoint 2 0 2 = (1, true, 2) ∧ renderPoint 2 0 2 = (6, 0, 2) :=
  mandel_C3 2 (by norm_num)

/-- C5: the claim says `(0, 0)` gives `escaped = false` with
`iterations = maxIterations` for every positive cap.  The CPU loop does
exactly that, but the shader's `iter` variable stays `0` for every
non-escaping point (it is only assigned on the escape break), so at
`maxIterations = 5` the GPU evaluator reports `0`, not `5`.  This theorem
evaluates both paths, exhibiting the code bug. -/
theorem mandel_C5 :
    (∀ m : Nat, renderPoint 0 0 m = (0, 0, m)) ∧
    (∀ m : Nat, (shaderPoint 0 0 m).2.1 = false) ∧
    (shaderPoint 0 0 5).1 = 0 ∧ (shaderPoint 0 0 5).1 ≠ 5 := by
  refine ⟨fun m => by simpa using renderLoop_origin 0 m,
    fun m => by rw [shaderPoint, shaderLoop_origin], ?_, ?_⟩
  · rw [shaderPoint, shaderLoop_origin]
  · rw [shaderPoint, shaderLoop_origin]
    norm_num

/-- C6: for pixels inside the buffer and a valid view window, the mapped
complex sample lies in `[xMin, xMax] × [yMin, yMax]`; pixel `0` maps
exactly to the lower bound on each axis, and `px = width - 1` maps
strictly below `xMax`. -/
theorem mandel_C6 (px py width height : Nat) (xMin xMax yMin yMax : ℚ)
    (hpx : px < width) (hpy : py < height) (hx : xMin < xMax) (hy : yMin ≤ yMax) :
    (xMin ≤ pixelToX px width xMin xMax ∧ pixelToX px width xMin xMax ≤ xMax) ∧
    (yMin ≤ pixelToX py height yMin yMax ∧ pixelToX py height yMin yMax ≤ yMax) ∧
    pixelToX 0 width xMin xMax = xMin ∧
    pixelToX 0 height yMin yMax = yMin ∧
    pixelToX (width - 1) width xMin xMax < xMax :=
  ⟨pixelToX_mem px width xMin xMax hpx hx.le,
   pixelToX_mem py height yMin yMax hpy hy,
   pixelToX_zero width xMin xMax,
   pixelToX_zero height yMin yMax,
   pixelToX_last width xMin xMax (Nat.lt_of_le_of_lt (Nat.zero_le px) hpx) hx⟩

/-- C6 witness: the mapper at pixel `(0, 0)` of a `2 × 2` buffer over the
window `[0, 1] × [0, 1]`. -/
theorem mandel_C6_witness :
    ((0 : ℚ) ≤ pixelToX 0 2 0 1 ∧ pixelToX 0 2 0 1 ≤ 1) ∧
    ((0 : ℚ) ≤ pixelToX 0 2 0 1 ∧ pixelToX 0 2 0 1 ≤ 1) ∧
    pixelToX 0 2 0 1 = 0 ∧
    pixelToX 0 2 0 1 = 0 ∧
    pixelToX (2 - 1) 2 0 1 < 1 :=
  mandel_C6 0 0 2 2 0 1 0 1 (by norm_num) (by norm_num) (by norm_num) (by norm_num)

/-- C8: determinism.  The embedding of the per-point evaluator and of the
whole `renderMandelbrot` buffer fill is a pure function of its inputs, so
two invocations with identical arguments produce identical Iteration
Results and byte-identical buffers. -/
theorem mandel_C8 (width height : Nat) (xMin xMax yMin yMax : ℚ)
    (maxIter : Nat) (hueShift : ℚ) (x0 y0 : ℚ) (m : Nat) :
    renderMandelbrot width height xMin xMax yMin yMax maxIter hueShift =
      renderMandelbrot width height xMin xMax yMin yMax maxIter hueShift ∧
    renderPoint x0 y0 m = renderPoint x0 y0 m :=
  ⟨rfl, rfl⟩

/-- C9: the scale animation keeps `1 ≤ scale < 1,000,000`, both for one
step from any state in the invariant and along the whole orbit of the
initial scale `100`; a step whose product reaches `MAX_SCALE` resets to
exactly `1`; and for any scale `≥ 1` the dynamic iteration cap
`⌊500 + 100 ln scale⌋` is at least `500`. -/
theorem mandel_C9 (s : ℚ) (r : ℝ) (n : Nat)
    (h1 : 1 ≤ s) (h2 : s < MAX_SCALE) (hr : 1 ≤ r) :
    (1 ≤ scaleStep s ∧ scaleStep s < MAX_SCALE) ∧
    0 < scaleStep s ∧
    (MAX_SCALE ≤ s * zoomSpeed → scaleStep s = 1) ∧
    (1 ≤ scaleStep^[n] initialScale ∧ scaleStep^[n] initialScale < MAX_SCALE) ∧
    500 ≤ dynamicMaxIter r := by
  obtain ⟨ha, hb⟩ := scaleStep_mem s h1 h2
  exact ⟨⟨ha, hb⟩, by linarith, fun h => by rw [scaleStep, if_pos h],
    scaleIter_mem n, dynamicMaxIter_ge r hr⟩

/-- C9 witness: the invariant at the initial state `scale = 100` and the
cap bound at `scale = 1`. -/
theorem mandel_C9_witness :
    (1 ≤ scaleStep 100 ∧ scaleStep 100 < MAX_SCALE) ∧
    0 < scaleStep 100 ∧
    (MAX_SCALE ≤ 100 * zoomSpeed → scaleStep 100 = 1) ∧
    (1 ≤ scaleStep^[0] initialScale ∧ scaleStep^[0] initialScale < MAX_SCALE) ∧
    500 ≤ dynamicMaxIter 1 :=
  mandel_C9 100 1 0 (by norm_num) (by norm_num [MAX_SCALE]) (by norm_num)

/-- C10: the shader loop performs at most `min uMaxIter 20000` updates of
`z`, for every input: the compile-time loop bound of `20000` caps the work
even when `uMaxIter` exceeds it. -/
theorem mandel_C10 (x0 y0 : ℚ) (m : Nat) :
    (shaderPoint x0 y0 m).2.2 ≤ min m 20000 := by
  have := shaderLoop_updates_le x0 y0 m 20000 0 0 0
  simpa [shaderPoint] using this

end Mandelbrot

namespace Mandelbrot

/-- Correspondence of the two escape-time loops at matched states: started
at the same `z` (of magnitude-squared at most `4`) and the same update
index `i`, with CPU fuel `fc = maxIter - i` and at least as much GPU fuel,
the shader escapes exactly when the CPU loop exits on the magnitude test,
the escape indices differ by exactly one, and on a non-escape the CPU
count is `maxIter` while the shader's `iter` stays `0`. -/
lemma loops_rel (x0 y0 : ℚ) (m : Nat) (fc : Nat) :
    ∀ (x y : ℚ) (i fg : Nat), i + fc = m → fc ≤ fg → x * x + y * y ≤ 4 →
      (((shaderLoop x0 y0 m x y i fg).2.1 = true) ↔
        4 < (renderLoop x0 y0 x y i fc).1 * (renderLoop x0 y0 x y i fc).1 +
            (renderLoop x0 y0 x y i fc).2.1 * (renderLoop x0 y0 x y i fc).2.1) ∧
      ((shaderLoop x0 y0 m x y i fg).2.1 = true →
        (shaderLoop x0 y0 m x y i fg).1 + 1 = (renderLoop x0 y0 x y i fc).2.2) ∧
      ((shaderLoop x0 y0 m x y i fg).2.1 = false →
        (renderLoop x0 y0 x y i fc).2.2 = m ∧ (shaderLoop x0 y0 m x y i fg).1 = 0) := by
  induction fc with
  | zero =>
    intro x y i fg hi hf hxy
    have hie : i = m := by omega
    subst hie
    have hg : shaderLoop x0 y0 i x y i fg = (0, false, 0) := by
      cases fg with
      | zero => rfl
      | succ k => rw [shaderLoop_succ, if_pos (le_refl i)]
    rw [hg]
    refine ⟨?_, ?_, ?_⟩
    · exact iff_of_false (by simp) (not_lt.mpr hxy)
    · intro h
      simp at h
    · intro h
      exact ⟨rfl, rfl⟩
  | succ n ih =>
    intro x y i fg hi hf hxy
    have hmi : ¬ (m ≤ i) := by omega
    obtain ⟨k, rfl⟩ : ∃ k, fg = k + 1 := by
      cases fg with
      | zero => omega
      | succ k => exact ⟨k, rfl⟩
    rw [shaderLoop_succ, if_neg hmi, renderLoop_succ, if_pos hxy]
    simp only
    by_cases hesc :
        4 < (x * x - y * y + x0) * (x * x - y * y + x0) +
          (2 * x * y + y0) * (2 * x * y + y0)
    · rw [if_pos hesc,
        renderLoop_stop x0 y0 _ _ (i + 1) n (not_le.mpr hesc)]
      refine ⟨by simpa using hesc, fun _ => rfl, fun h => by simp at h⟩
    · rw [if_neg hesc]
      have := ih (x * x - y * y + x0) (2 * x * y + y0) (i + 1) k
        (by omega) (by omega) (not_lt.mp hesc)
      simpa using this

/-- C2 counterexample: the claim says the GPU and CPU evaluators produce
identical iteration counts for every input.  At `(x0, y0) = (2, 0)` with
`maxIterations = 5` the shader reports `iter = 1` while the CPU loop
reports `iter = 2`. -/
theorem mandel_C2_cex :
    (shaderPoint 2 0 5).1 ≠ (renderPoint 2 0 5).2.2 := by
  rw [shaderPoint_two 5 (by norm_num), renderPoint_two 5 (by norm_num)]
  norm_num

/-- C2 amended: the two loops implement the same recurrence and threshold
and, for `maxIterations ≤ 20000`, agree on which inputs escape — but the
reported counts differ systematically: on escape the CPU count is the GPU
count plus one (the CPU loop counts completed updates, the shader records
the 0-based update index), and on a non-escape the CPU count is
`maxIterations` while the shader's `iter` variable remains `0`. -/
theorem mandel_C2 (x0 y0 : ℚ) (m : Nat) (hm : m ≤ 20000) :
    (((shaderPoint x0 y0 m).2.1 = true) ↔
      4 < (renderPoint x0 y0 m).1 * (renderPoint x0 y0 m).1 +
          (renderPoint x0 y0 m).2.1 * (renderPoint x0 y0 m).2.1) ∧
    ((shaderPoint x0 y0 m).2.1 = true →
      (shaderPoint x0 y0 m).1 + 1 = (renderPoint x0 y0 m).2.2) ∧
    ((shaderPoint x0 y0 m).2.1 = false →
      (renderPoint x0 y0 m).2.2 = m ∧ (shaderPoint x0 y0 m).1 = 0) := by
  have := loops_rel x0 y0 m m 0 0 0 20000 (by omega) hm (by norm_num)
  simpa [shaderPoint, renderPoint] using this

/-- C2 witness: the amended relation instantiated at `(2, 0)` with
`maxIterations = 5`. -/
theorem mandel_C2_witness :
    (((shaderPoint 2 0 5).2.1 = true) ↔
      4 < (renderPoint 2 0 5).1 * (renderPoint 2 0 5).1 +
          (renderPoint 2 0 5).2.1 * (renderPoint 2 0 5).2.1) ∧
    ((shaderPoint 2 0 5).2.1 = true →
      (shaderPoint 2 0 5).1 + 1 = (renderPoint 2 0 5).2.2) ∧
    ((shaderPoint 2 0 5).2.1 = false →
      (renderPoint 2 0 5).2.2 = 5 ∧ (shaderPoint 2 0 5).1 = 0) :=
  mandel_C2 2 0 5 (by norm_num)

end Mandelbrot

namespace Mandelbrot

/-! ## Remainder and hue lemmas -/

/-- GLSL `mod(v, 360)` is a true mathematical modulo: it lands in `[0, 360)`
for every argument, negative ones included. -/
lemma glslMod_nonneg_lt (v : ℚ) : 0 ≤ glslMod v 360 ∧ glslMod v 360 < 360 := by
  unfold glslMod
  have h1 : (⌊v / 360⌋ : ℚ) ≤ v / 360 := Int.floor_le _
  have h2 : v / 360 < ⌊v / 360⌋ + 1 := Int.lt_floor_add_one _
  have hv : (360 : ℚ) * (v / 360) = v := by ring
  constructor
  · nlinarith
  · nlinarith

lemma glslMod_add_360 (x : ℚ) : glslMod (x + 360) 360 = glslMod x 360 := by
  unfold glslMod
  rw [show (x + 360) / 360 = x / 360 + 1 by ring, Int.floor_add_one]
  push_cast
  ring

/-- JavaScript `%` is a truncating remainder: on `(-360, 0)` it is the
identity, so it returns a negative value there. -/
lemma jsRem_of_neg (v : ℚ) (h1 : -360 < v) (h2 : v < 0) : jsRem v 360 = v := by
  unfold jsRem truncQ
  have hd : v / 360 < 0 := div_neg_of_neg_of_pos h2 (by norm_num)
  rw [if_neg (not_le.mpr hd)]
  have hc : ⌈v / 360⌉ = 0 := by
    rw [Int.ceil_eq_zero_iff]
    constructor
    · show (-1 : ℚ) < v / 360
      rw [lt_div_iff₀ (by norm_num : (0 : ℚ) < 360)]
      linarith
    · exact hd.le
  rw [hc]
  norm_num

lemma jsRem_of_nonneg_lt (v : ℚ) (h1 : 0 ≤ v) (h2 : v < 360) : jsRem v 360 = v := by
  unfold jsRem truncQ
  rw [if_pos (div_nonneg h1 (by norm_num))]
  have hf : ⌊v / 360⌋ = 0 := by
    rw [Int.floor_eq_zero_iff]
    constructor
    · exact div_nonneg h1 (by norm_num)
    · rw [div_lt_one (by norm_num : (0 : ℚ) < 360)]
      exact h2
  rw [hf]
  norm_num

/-- Outside the window `(-360, 0)` the truncating remainder is invariant
under adding one period. -/
lemma jsRem_add_360 (v : ℚ) (h : 0 ≤ v ∨ v ≤ -360) :
    jsRem (v + 360) 360 = jsRem v 360 := by
  unfold jsRem
  rw [show (v + 360) / 360 = v / 360 + 1 by ring]
  have ht : truncQ (v / 360 + 1) = truncQ (v / 360) + 1 := by
    unfold truncQ
    rcases h with h | h
    · have h0 : 0 ≤ v / 360 := div_nonneg h (by norm_num)
      rw [if_pos h0, if_pos (by linarith), Int.floor_add_one]
    · have h0 : v / 360 ≤ -1 := by
        rw [div_le_iff₀ (by norm_num : (0 : ℚ) < 360)]
        linarith
      rw [if_neg (by push_neg; linarith : ¬ 0 ≤ v / 360)]
      by_cases h1 : 0 ≤ v / 360 + 1
      · have he : v / 360 = -1 := le_antisymm h0 (by linarith)
        rw [if_pos h1, he, show ((-1 : ℚ)) = ((-1 : ℤ) : ℚ) by norm_num,
          Int.ceil_intCast]
        norm_num
      · rw [if_neg h1]
        exact_mod_cast Int.ceil_add_one (v / 360)
  rw [ht]
  push_cast
  ring

/-- On `[0, 1]` the `hue2rgb` helper skips both normalisation branches. -/
lemma hue2rgb_branch (p q t : ℚ) (h1 : 0 ≤ t) (h2 : t ≤ 1) :
    hue2rgb p q t =
      if t < 1 / 6 then p + (q - p) * 6 * t
      else if t < 1 / 2 then q
      else if t < 2 / 3 then p + (q - p) * (2 / 3 - t) * 6
      else p := by
  simp only [hue2rgb]
  rw [if_neg (not_lt.mpr h1), if_neg (not_lt.mpr h2)]

/-- For arguments in `[-1, 1)` the `hue2rgb` helper is invariant under a
shift by one (its internal single `+1` / `-1` normalisation suffices). -/
lemma hue2rgb_add_one (p q t : ℚ) (h1 : -1 ≤ t) (h2 : t < 1) :
    hue2rgb p q (t + 1) = hue2rgb p q t := by
  rcases lt_or_le t 0 with ht | ht
  · have e1 : hue2rgb p q t =
        (if t + 1 < 1 / 6 then p + (q - p) * 6 * (t + 1)
         else if t + 1 < 1 / 2 then q
         else if t + 1 < 2 / 3 then p + (q - p) * (2 / 3 - (t + 1)) * 6
         else p) := by
      simp only [hue2rgb]
      rw [if_pos ht, if_neg (not_lt.mpr (by linarith : t + 1 ≤ 1))]
    rw [e1, hue2rgb_branch p q (t + 1) (by linarith) (by linarith)]
  · rcases eq_or_lt_of_le ht with h0 | h0
    · rw [← h0]
      rw [hue2rgb_branch p q (0 + 1) (by norm_num) (by norm_num),
        hue2rgb_branch p q 0 (by norm_num) (by norm_num)]
      norm_num
    · have e1 : hue2rgb p q (t + 1) =
          (if t + 1 - 1 < 1 / 6 then p + (q - p) * 6 * (t + 1 - 1)
           else if t + 1 - 1 < 1 / 2 then q
           else if t + 1 - 1 < 2 / 3 then p + (q - p) * (2 / 3 - (t + 1 - 1)) * 6
           else p) := by
        simp only [hue2rgb]
        rw [if_neg (not_lt.mpr (by linarith : (0 : ℚ) ≤ t + 1)),
          if_pos (by linarith : (1 : ℚ) < t + 1)]
      rw [e1, hue2rgb_branch p q t (by linarith) (by linarith)]
      norm_num

/-- For `t` in `(-4/3, -1)` the argument `t + 1` lands in the last branch
after normalisation: `hue2rgb 0 1 (t + 1) = 0`. -/
lemma hue2rgb_low_zero (t : ℚ) (h1 : -4 / 3 < t) (h2 : t < -1) :
    hue2rgb 0 1 (t + 1) = 0 := by
  simp only [hue2rgb]
  rw [if_pos (by linarith : t + 1 < 0),
    if_neg (not_lt.mpr (by linarith : t + 1 + 1 ≤ 1)),
    if_neg (not_lt.mpr (by linarith : (1 : ℚ) / 6 ≤ t + 1 + 1)),
    if_neg (not_lt.mpr (by linarith : (1 : ℚ) / 2 ≤ t + 1 + 1)),
    if_neg (not_lt.mpr (by linarith : (2 : ℚ) / 3 ≤ t + 1 + 1))]

/-- For `t` in `(-4/3, -1)` the raw `hue2rgb 0 1 t` value is negative;
`Math.round(value * 255)` is then nonpositive and the `Uint8ClampedArray`
store clamps it to `0`. -/
lemma hue2rgb_neg_byte (t : ℚ) (h1 : -4 / 3 < t) (h2 : t < -1) :
    clampByte (jsRound (hue2rgb 0 1 t * 255)) = 0 := by
  have hval : hue2rgb 0 1 t = 0 + (1 - 0) * 6 * (t + 1) := by
    simp only [hue2rgb]
    rw [if_pos (by linarith : t < 0),
      if_neg (not_lt.mpr (by linarith : t + 1 ≤ 1)),
      if_pos (by linarith : t + 1 < 1 / 6)]
  rw [hval]
  have hfl : jsRound ((0 + (1 - 0) * 6 * (t + 1)) * 255) ≤ 0 := by
    unfold jsRound
    have hlt : ⌊(0 + (1 - 0) * 6 * (t + 1)) * 255 + 1 / 2⌋ < 1 := by
      rw [Int.floor_lt]
      push_cast
      nlinarith
    omega
  unfold clampByte
  omega

/-- `hslToRgb` at the fixed saturation `1` and lightness `1/2` used by the
renderer: `q = 1` and `p = 0`. -/
lemma hslToRgb_half (h : ℚ) :
    hslToRgb h 1 (1 / 2) =
      (jsRound (hue2rgb 0 1 (h + 1 / 3) * 255),
       jsRound (hue2rgb 0 1 h * 255),
       jsRound (hue2rgb 0 1 (h - 1 / 3) * 255)) := by
  simp only [hslToRgb]
  norm_num

/-- The stored CPU color bytes are invariant under shifting the pre-modulo
hue argument by `360`.  For arguments in `(-360, 0)` the truncating `%`
yields a negative hue; the `hue2rgb` normalisation absorbs the difference
on two channels, and on the remaining channel both sides store `0` (the
raw negative rounded value only through the `Uint8ClampedArray` clamp). -/
lemma colorBytes_add_360 (v : ℚ) : colorBytes (v + 360) = colorBytes v := by
  rcases le_or_lt 0 v with hv | hv
  · unfold colorBytes
    rw [jsRem_add_360 v (Or.inl hv)]
  · rcases le_or_lt v (-360) with hv2 | hv2
    · unfold colorBytes
      rw [jsRem_add_360 v (Or.inr hv2)]
    · have hrem1 : jsRem v 360 = v := jsRem_of_neg v hv2 hv
      have hrem2 : jsRem (v + 360) 360 = v + 360 :=
        jsRem_of_nonneg_lt _ (by linarith) (by linarith)
      have hl : (-1 : ℚ) < v / 360 := by
        rw [lt_div_iff₀ (by norm_num : (0 : ℚ) < 360)]
        linarith
      have hu : v / 360 < 0 := div_neg_of_neg_of_pos hv (by norm_num)
      unfold colorBytes
      dsimp only
      rw [hrem1, hrem2, hslToRgb_half, hslToRgb_half,
        show (v + 360) / 360 = v / 360 + 1 by ring]
      simp only [Prod.mk.injEq]
      refine ⟨?_, ?_, ?_⟩
      · rw [show v / 360 + 1 + 1 / 3 = (v / 360 + 1 / 3) + 1 by ring,
          hue2rgb_add_one 0 1 (v / 360 + 1 / 3) (by linarith) (by linarith)]
      · rw [hue2rgb_add_one 0 1 (v / 360) (by linarith) (by linarith)]
      · rcases le_or_lt (-1) (v / 360 - 1 / 3) with hb | hb
        · rw [show v / 360 + 1 - 1 / 3 = (v / 360 - 1 / 3) + 1 by ring,
            hue2rgb_add_one 0 1 (v / 360 - 1 / 3) hb (by linarith)]
        · rw [show v / 360 + 1 - 1 / 3 = (v / 360 - 1 / 3) + 1 by ring,
            hue2rgb_low_zero (v / 360 - 1 / 3) (by linarith) hb,
            hue2rgb_neg_byte (v / 360 - 1 / 3) (by linarith) hb]
          norm_num [jsRound, clampByte]

/-- C4 counterexample: the claim says both paths reduce the hue into
`[0, 360)` for every negative `hueShift`.  In the CPU path, at `iter = 0`,
`maxIterations = 1`, `hueShift = -90`, the computed hue
`((0/1) * 360 + (-90)) % 360` is `-90`, which is negative: JavaScript `%`
truncates instead of flooring. -/
theorem mandel_C4_cex :
    jsRem ((0 : ℚ) / (1 : ℚ) * 360 + (-90)) 360 = -90 ∧
    ¬ (0 ≤ jsRem ((0 : ℚ) / (1 : ℚ) * 360 + (-90)) 360) := by
  have h : jsRem ((0 : ℚ) / (1 : ℚ) * 360 + (-90)) 360 = -90 := by
    rw [show (0 : ℚ) / (1 : ℚ) * 360 + (-90) = -90 by norm_num]
    exact jsRem_of_neg (-90) (by norm_num) (by norm_num)
  rw [h]
  norm_num

/-- C4 amended: the GPU path's GLSL `mod` is a true mathematical modulo,
so its hue lies in `[0, 360)` for every argument including negative hue
shifts; the CPU path's JavaScript `%` is a truncating remainder, which is
the identity (hence negative) on `(-360, 0)`. -/
theorem mandel_C4 (v w : ℚ) (h1 : -360 < w) (h2 : w < 0) :
    (0 ≤ glslMod v 360 ∧ glslMod v 360 < 360) ∧ jsRem w 360 = w :=
  ⟨glslMod_nonneg_lt v, jsRem_of_neg w h1 h2⟩

/-- C4 witness: the amended claim at the hue argument `-90`. -/
theorem mandel_C4_witness :
    ((0 : ℚ) ≤ glslMod (-90) 360 ∧ glslMod (-90) 360 < 360) ∧
    jsRem (-90) 360 = -90 :=
  mandel_C4 (-90) (-90) (by norm_num) (by norm_num)

/-- C7: for every Iteration Result and every hue shift, the color mappers
produce identical output for `hueShift` and `hueShift + 360`: the stored
8-bit CPU channels (including the `Uint8ClampedArray` clamp) and the raw
GPU fragment channels are both wraparound-invariant. -/
theorem mandel_C7 (iter maxIter : Nat) (hs : ℚ) :
    cpuPixelColor iter maxIter (hs + 360) = cpuPixelColor iter maxIter hs ∧
    fragColor iter maxIter (hs + 360) = fragColor iter maxIter hs := by
  constructor
  · unfold cpuPixelColor
    rw [show (iter : ℚ) / (maxIter : ℚ) * 360 + (hs + 360) =
        ((iter : ℚ) / (maxIter : ℚ) * 360 + hs) + 360 by ring,
      colorBytes_add_360]
  · unfold fragColor
    by_cases h : iter = maxIter
    · rw [if_pos h, if_pos h]
    · rw [if_neg h, if_neg h,
        show (iter : ℚ) / (maxIter : ℚ) * 360 + (hs + 360) =
          ((iter : ℚ) / (maxIter : ℚ) * 360 + hs) + 360 by ring,
        glslMod_add_360]

end Mandelbrot
